import Mathlib

/-!
Verification of the LaTeX-resume parsing and regeneration core of
`resume_ai_tailor.py` (`LaTeXtoJSONParser`, `Resume._json_to_latex_experience`,
`Resume.create`).  Text is modelled as `List Char`; every Python regex used by
the source is embedded as a dedicated deterministic scanner with the same
matching semantics on the bounded macro vocabulary involved (leftmost search,
non-overlapping `findall`, lazy/greedy groups as forced by the patterns);
Python exceptions are modelled by `Except PyErr`.
-/

/-- Character-list representation of Python strings. -/
abbrev Str := List Char

/-- Conversion from Lean string literals. -/
def strL (s : String) : Str := s.toList

deriving instance DecidableEq for Except

/-- Python `str.strip()` whitespace characters (the ASCII ones, which cover all
inputs of interest). -/
def isPySpace (c : Char) : Bool :=
  c = ' ' || c = '\t' || c = '\n' || c = '\r' || c = '\x0b' || c = '\x0c'

/-- Strip characters satisfying `p` from both ends (Python `str.strip`). -/
def stripBy (p : Char → Bool) (s : Str) : Str :=
  ((s.dropWhile p).reverse.dropWhile p).reverse

/-- Python `str.strip()` with no argument. -/
def pyStrip (s : Str) : Str := stripBy isPySpace s

/-- Python `str.strip(chars)`: `chars` is a set of characters to trim from both
ends. -/
def stripSet (cs : Str) (s : Str) : Str := stripBy (fun c => c ∈ cs) s

/-- Index of the first occurrence of `needle` in `hay` (`none` if absent). -/
def subFind (needle : Str) : Str → Option Nat
  | [] => if needle = [] then some 0 else none
  | c :: t =>
    if needle.isPrefixOf (c :: t) then some 0
    else (subFind needle t).map (· + 1)

/-- Index of the first occurrence of `needle` in `s` at position `start` or
later (absolute index). -/
def findFrom (needle s : Str) (start : Nat) : Option Nat :=
  (subFind needle (s.drop start)).map (· + start)

/-- The substring of `s` from index `a` (inclusive) to `b` (exclusive). -/
def sliceStr (s : Str) (a b : Nat) : Str := (s.drop a).take (b - a)

/-- Python `needle in s` on strings. -/
def containsSub (needle s : Str) : Bool := (subFind needle s).isSome

/-- Consume the literal `lit` from the front of `s`, returning the rest. -/
def litP (lit s : Str) : Option Str :=
  if lit.isPrefixOf s then some (s.drop lit.length) else none

/-- Capture `[^}]+` followed by a consumed `\}`: the maximal nonempty run of
characters other than a closing brace, which the pattern then requires to be
followed by one.  Returns the group and the rest after the brace. -/
def grpPlus (s : Str) : Option (Str × Str) :=
  let g := s.takeWhile (fun c => c ≠ '\x7d')
  if g = [] then none
  else
    match s.drop g.length with
    | c :: rest => if c = '\x7d' then some (g, rest) else none
    | [] => none

/-- Capture `[^}]*` (possibly empty) followed by a consumed `\}`. -/
def grpStar (s : Str) : Option (Str × Str) :=
  let g := s.takeWhile (fun c => c ≠ '\x7d')
  match s.drop g.length with
  | c :: rest => if c = '\x7d' then some (g, rest) else none
  | [] => none

/-- Recursion core of `replaceSub`.  The fuel only bounds the recursion
depth; every step consumes at least one character, so the initial fuel
`s.length` is never exhausted and the `0` branch is unreachable. -/
def replaceSubFuel (pat rep : Str) : Nat → Str → Str
  | _, [] => []
  | 0, s => s
  | fuel + 1, c :: t =>
    if pat ≠ [] ∧ pat.isPrefixOf (c :: t) then
      rep ++ replaceSubFuel pat rep fuel ((c :: t).drop pat.length)
    else
      c :: replaceSubFuel pat rep fuel t

/-- Python `str.replace(pat, rep)`: leftmost, non-overlapping, all
occurrences.  The `pat ≠ []` guard only rules out the degenerate empty
pattern, which the source never uses. -/
def replaceSub (pat rep s : Str) : Str := replaceSubFuel pat rep s.length s

/-- Recursion core of `findAll`; as in `replaceSubFuel`, the fuel is an
unreachable bound since every match consumes at least one character. -/
def findAllFuel (m : Str → Option (α × Str)) : Nat → Str → List α
  | _, [] => []
  | 0, _ => []
  | fuel + 1, c :: t =>
    match m (c :: t) with
    | some (a, rest) =>
      a :: findAllFuel m fuel (if rest.length < t.length + 1 then rest else t)
    | none => findAllFuel m fuel t

/-- Generic model of `re.findall` for a deterministic per-position matcher
`m`: `m s` returns the captured value together with the rest of the string
after the match.  Scanning is leftmost and non-overlapping; every matcher used
here consumes at least one character, so the length guard in the `some`
branch is never active. -/
def findAll (m : Str → Option (α × Str)) (s : Str) : List α :=
  findAllFuel m s.length s

/-- Model of `re.search` returning the leftmost match of `m`. -/
def searchFirst (m : Str → Option (α × Str)) (s : Str) : Option α :=
  (findAll m s).head?

/-- The literal `\&` (the markup-level escaped ampersand). -/
def ampTok : Str := strL "\\&"

/-- The internal sentinel `__AND__` used by the source for `\&`. -/
def sentinelTok : Str := strL "__AND__"

/-- The literal `\section`. -/
def sectionTok : Str := strL "\\section"

/-- The literal `\section{Experience}` (the splice pattern's lookbehind). -/
def expHeading : Str := strL "\\section\x7bExperience\x7d"

/-- The literal `\subsection`. -/
def subsectionTok : Str := strL "\\subsection"

/-- The literal `\begin{document}`. -/
def beginDocTok : Str := strL "\\begin\x7bdocument\x7d"

/-- The literal `\end{document}`. -/
def endDocTok : Str := strL "\\end\x7bdocument\x7d"

/-- The literal `\end{itemize}`. -/
def endItemizeTok : Str := strL "\\end\x7bitemize\x7d"

/-- Matcher for `\\name\{([^}]+)\}\{([^}]+)\}`. -/
def nameMatcher (s : Str) : Option ((Str × Str) × Str) := do
  let r1 ← litP (strL "\\name\x7b") s
  let (g1, r2) ← grpPlus r1
  let r3 ← litP (strL "\x7b") r2
  let (g2, r4) ← grpPlus r3
  some ((g1, g2), r4)

/-- Matcher for `\\address\{([^}]+)\}`. -/
def addressMatcher (s : Str) : Option (Str × Str) := do
  let r1 ← litP (strL "\\address\x7b") s
  grpPlus r1

/-- Matcher for `\\phone\[mobile\]\{([^}]+)\}`. -/
def phoneMatcher (s : Str) : Option (Str × Str) := do
  let r1 ← litP (strL "\\phone[mobile]\x7b") s
  grpPlus r1

/-- Matcher for `\\email\{([^}]+)\}`. -/
def emailMatcher (s : Str) : Option (Str × Str) := do
  let r1 ← litP (strL "\\email\x7b") s
  grpPlus r1

/-- Matcher for `\\cvitem\{([^}]+)\}\{([^}]+)\}` (skills). -/
def cvitemMatcher (s : Str) : Option ((Str × Str) × Str) := do
  let r1 ← litP (strL "\\cvitem\x7b") s
  let (g1, r2) ← grpPlus r1
  let r3 ← litP (strL "\x7b") r2
  let (g2, r4) ← grpPlus r3
  some ((g1, g2), r4)

/-- Matcher for `\\cvitem\{(\d+)\}\{([^}]+)\}` (certificates): a maximal
nonempty digit run which must be followed by the closing brace. -/
def certMatcher (s : Str) : Option ((Str × Str) × Str) := do
  let r1 ← litP (strL "\\cvitem\x7b") s
  let g1 := r1.takeWhile (fun c => c.isDigit)
  if g1 = [] then none else
  let r2 ← litP (strL "\x7d\x7b") (r1.drop g1.length)
  let (g2, r3) ← grpPlus r2
  some ((g1, g2), r3)

/-- Matcher for `\\cventry\{([^}]+)\}\{([^}]+)\}\{([^}]*)\}` (roles). -/
def roleMatcher (s : Str) : Option ((Str × Str × Str) × Str) := do
  let r1 ← litP (strL "\\cventry\x7b") s
  let (g1, r2) ← grpPlus r1
  let r3 ← litP (strL "\x7b") r2
  let (g2, r4) ← grpPlus r3
  let r5 ← litP (strL "\x7b") r4
  let (g3, r6) ← grpStar r5
  some ((g1, g2, g3), r6)

/-- Matcher for `\\begin\{itemize\}(.*?)\\end\{itemize\}` with `re.DOTALL`:
the lazy group runs to the first `\end{itemize}`. -/
def itemizeMatcher (s : Str) : Option (Str × Str) := do
  let r1 ← litP (strL "\\begin\x7bitemize\x7d") s
  match subFind endItemizeTok r1 with
  | some j => some (r1.take j, r1.drop (j + endItemizeTok.length))
  | none => none

/-- Matcher for `\\item (.+)` (no `re.DOTALL`): the greedy group is the
maximal nonempty run of non-newline characters. -/
def itemMatcher (s : Str) : Option (Str × Str) := do
  let r1 ← litP (strL "\\item ") s
  let g := r1.takeWhile (fun c => c ≠ '\n')
  if g = [] then none else some (g, r1.drop g.length)

/-- Matcher for the education pattern
`\\cventry\{([^}]+)\}\{([^}]+)\}\{([^}]*?)\}\{([^}]*?)\}\{(.*?)\}\{\}`
(no `re.DOTALL`): the fifth, lazy any-character group runs to the first
`}{}` and cannot cross a newline. -/
def eduMatcher (s : Str) : Option ((Str × Str × Str × Str × Str) × Str) := do
  let r1 ← litP (strL "\\cventry\x7b") s
  let (g1, r2) ← grpPlus r1
  let r3 ← litP (strL "\x7b") r2
  let (g2, r4) ← grpPlus r3
  let r5 ← litP (strL "\x7b") r4
  let (g3, r6) ← grpStar r5
  let r7 ← litP (strL "\x7b") r6
  let (g4, r8) ← grpStar r7
  let r9 ← litP (strL "\x7b") r8
  match subFind (strL "\x7d\x7b\x7d") r9 with
  | some j =>
    if (r9.take j).any (fun c => c = '\n') then none
    else some ((g1, g2, g3, g4, r9.take j), r9.drop (j + 3))
  | none => none

/-- Matcher for the publication pattern
`\\cventry\{([^}]+)\}\{([^}]+)\}\{\}\{\}\{\}\{([^}]+)\}`. -/
def pubMatcher (s : Str) : Option ((Str × Str × Str) × Str) := do
  let r1 ← litP (strL "\\cventry\x7b") s
  let (g1, r2) ← grpPlus r1
  let r3 ← litP (strL "\x7b") r2
  let (g2, r4) ← grpPlus r3
  let r5 ← litP (strL "\x7b\x7d\x7b\x7d\x7b\x7d\x7b") r4
  let (g3, r6) ← grpPlus r5
  some ((g1, g2, g3), r6)

/-- Matcher for the project pattern
`\\cvitem\{\}\{\\textbf\{([^}]+)\}\.(.*?)\}` with `re.DOTALL`: the lazy
second group runs to the first closing brace. -/
def projMatcher (s : Str) : Option ((Str × Str) × Str) := do
  let r1 ← litP (strL "\\cvitem\x7b\x7d\x7b\\textbf\x7b") s
  let (g1, r2) ← grpPlus r1
  let r3 ← litP (strL ".") r2
  let (g2, r4) ← grpStar r3
  some ((g1, g2), r4)

/-- Matcher for `\\subsection\{(.+?)\}(.*?)(?=\\subsection|$)` with
`re.DOTALL`: the first, lazy group is the shortest nonempty run up to a
closing brace; the second runs to the next `\subsection`, or to the position
of Python's `$` (end of string, or just before one final newline). -/
def companyMatcher (s : Str) : Option ((Str × Str) × Str) := do
  let r1 ← litP (strL "\\subsection\x7b") s
  match r1 with
  | [] => none
  | c :: t =>
    match subFind (strL "\x7d") t with
    | none => none
    | some m =>
      let g1 := c :: t.take m
      let after := t.drop (m + 1)
      let stop :=
        match subFind subsectionTok after with
        | some j => j
        | none => if after.getLast? = some '\n' then after.length - 1 else after.length
      some ((g1, after.take stop), after.drop stop)

/-- Python exceptions the parser can raise, together with the two error
classes named by the specification.  Modelled from the spec:
`MalformedDocumentError` and `MissingFieldError` appear in the spec's error
taxonomy but no such classes exist anywhere in the source, whose failures are
untyped `AttributeError` / `TypeError` / `IndexError`. -/
inductive PyErr where
  | attributeError
  | typeError
  | indexError
  | malformedDocumentError
  | missingFieldError
deriving DecidableEq, Repr

/-- Personal contact block (`parse_personal_information`). -/
structure PersonalInfo where
  name : Str
  address : Str
  phone : Str
  email : Str
deriving DecidableEq, Repr

/-- One skill item. -/
structure SkillEntry where
  skill : Str
  details : Str
deriving DecidableEq, Repr

/-- One certificate item. -/
structure CertificateEntry where
  year : Str
  title : Str
deriving DecidableEq, Repr

/-- One role held at a company. -/
structure RoleEntry where
  job_title : Str
  period : Str
deriving DecidableEq, Repr

/-- One employer block of the experience section. -/
structure ExperienceEntry where
  company : Str
  location : Str
  roles : List RoleEntry
  description : List Str
deriving DecidableEq, Repr

/-- One education item (kept only when the fifth macro field contains
`GPA`). -/
structure EducationEntry where
  year : Str
  degree : Str
  institution : Str
  GPA : Str
deriving DecidableEq, Repr

/-- One publication item. -/
structure PublicationEntry where
  year : Str
  title : Str
  description : Str
deriving DecidableEq, Repr

/-- One project item. -/
structure ProjectEntry where
  name : Str
  description : Str
deriving DecidableEq, Repr

/-- The dictionary returned by `parse_resume`.  The four sections parsed with
the mis-grouped `...\section|$` patterns are always lists when no exception
is raised; publications and projects keep the source's `Optional` shape. -/
structure ResumeDoc where
  skills : List SkillEntry
  certificates : List CertificateEntry
  experience : List ExperienceEntry
  education : List EducationEntry
  publications : Option (List PublicationEntry)
  projects : Option (List ProjectEntry)
deriving DecidableEq, Repr

/-- The literal `\section{Skills}`. -/
def skillsHeading : Str := strL "\\section\x7bSkills\x7d"

/-- The literal `\section{Certifications}`. -/
def certsHeading : Str := strL "\\section\x7bCertifications\x7d"

/-- The literal `\section{Education}`. -/
def eduHeading : Str := strL "\\section\x7bEducation\x7d"

/-- The literal `\section{Publications}`. -/
def pubsHeading : Str := strL "\\section\x7bPublications\x7d"

/-- The literal `\section{Projects}`. -/
def projsHeading : Str := strL "\\section\x7bProjects\x7d"

/-- The literal `GPA`. -/
def gpaTok : Str := strL "GPA"

/-- Group 1 of `re.search(heading(.*?)\\section|$, s, re.DOTALL)` as written
in `_parse_skills`, `_parse_certificates`, `_parse_experience` and
`_parse_education`: because `|$` binds against the whole first alternative,
the search degenerates to a zero-width `$` match (whose group 1 is `None`,
here `none`) whenever the heading is absent or no later `\section` follows
it.  Otherwise the lazy group runs from the first heading occurrence to the
next `\section`. -/
def sectionGroup1 (heading s : Str) : Option Str :=
  match findFrom heading s 0 with
  | none => none
  | some i =>
    match findFrom sectionTok s (i + heading.length) with
    | some j => some (sliceStr s (i + heading.length) j)
    | none => none

/-- Group 1 of `re.search(heading(.*?)(\\section|$), s, re.DOTALL)` as
written in `_parse_publications` and `_parse_projects`: here the alternation
is grouped, so a missing heading yields no match at all, and with the heading
present the lazy group stops at the next `\section` or at Python's `$`
(end of string, or just before one final newline). -/
def sectionGroup1b (heading s : Str) : Option Str :=
  match findFrom heading s 0 with
  | none => none
  | some i =>
    let st := i + heading.length
    match findFrom sectionTok s st with
    | some j => some (sliceStr s st j)
    | none =>
      some (sliceStr s st
        (if s.getLast? = some '\n' ∧ st ≤ s.length - 1 then s.length - 1 else s.length))

/-- Group 1 of `re.search(\\begin\{document\}(.*?)\\end\{document\}, s,
re.DOTALL)`. -/
def bodyGroup1 (s : Str) : Option Str :=
  match findFrom beginDocTok s 0 with
  | none => none
  | some i =>
    match findFrom endDocTok s (i + beginDocTok.length) with
    | some j => some (sliceStr s (i + beginDocTok.length) j)
    | none => none

/-- `LaTeXtoJSONParser.parse_personal_information`: substitutes `\&` by the
sentinel, then requires the four anchors; a missing anchor is Python
`name_match.group(1)` on `None`, i.e. `AttributeError`.  The sentinel is
never substituted back in this method. -/
def parse_personal_information (latex_content : Str) : Except PyErr PersonalInfo :=
  let t := replaceSub ampTok sentinelTok latex_content
  match searchFirst nameMatcher t with
  | none => .error .attributeError
  | some ng =>
    match searchFirst addressMatcher t with
    | none => .error .attributeError
    | some a =>
      match searchFirst phoneMatcher t with
      | none => .error .attributeError
      | some p =>
        match searchFirst emailMatcher t with
        | none => .error .attributeError
        | some e => .ok ⟨ng.1 ++ [' '] ++ ng.2, a, p, e⟩

/-- `LaTeXtoJSONParser._parse_skills`: when the degenerate `$` match makes
group 1 `None`, `re.findall(..., None)` raises `TypeError`. -/
def parse_skills (latex_content : Str) : Except PyErr (List SkillEntry) :=
  match sectionGroup1 skillsHeading latex_content with
  | none => .error .typeError
  | some skills => .ok ((findAll cvitemMatcher skills).map (fun g => ⟨g.1, g.2⟩))

/-- `LaTeXtoJSONParser._parse_certificates` (same degenerate-`$` behavior as
`_parse_skills`). -/
def parse_certificates (latex_content : Str) : Except PyErr (List CertificateEntry) :=
  match sectionGroup1 certsHeading latex_content with
  | none => .error .typeError
  | some content => .ok ((findAll certMatcher content).map (fun g => ⟨g.1, g.2⟩))

/-- Body of the per-company loop of `_parse_experience`: `roles[0][2]` on an
employer with no role macro raises `IndexError`; the description comes from
the last itemize block only. -/
def parseCompany (nameRaw contentRaw : Str) : Except PyErr ExperienceEntry :=
  let company_name := pyStrip nameRaw
  let company_content := pyStrip contentRaw
  let roles := findAll roleMatcher company_content
  match roles.head? with
  | none => .error .indexError
  | some r0 =>
    let descriptions := findAll itemizeMatcher company_content
    let overall_description : List Str :=
      match descriptions.getLast? with
      | none => []
      | some lastBlock => (findAll itemMatcher lastBlock).map pyStrip
    .ok ⟨company_name, r0.2.2, roles.map (fun r => ⟨r.2.1, r.1⟩), overall_description⟩

/-- Loop with exception propagation (a Python `for` that appends, where any
raise aborts the whole call). -/
def mapMExc (f : α → Except PyErr β) : List α → Except PyErr (List β)
  | [] => .ok []
  | x :: xs =>
    match f x with
    | .error e => .error e
    | .ok b =>
      match mapMExc f xs with
      | .error e => .error e
      | .ok bs => .ok (b :: bs)

/-- `LaTeXtoJSONParser._parse_experience`. -/
def parse_experience (latex_content : Str) : Except PyErr (List ExperienceEntry) :=
  match sectionGroup1 expHeading latex_content with
  | none => .error .typeError
  | some content => mapMExc (fun cp => parseCompany cp.1 cp.2) (findAll companyMatcher content)

/-- The education-entry constructor of `_parse_education`: year, degree,
institution = fourth field, GPA = fifth field with `strip("\\textit{}")`
applied — Python strips the character set of that string from both ends. -/
def mkEducationEntry (g : Str × Str × Str × Str × Str) : EducationEntry :=
  ⟨g.1, g.2.1, g.2.2.2.1, stripSet (strL "\\textit\x7b\x7d") g.2.2.2.2⟩

/-- `LaTeXtoJSONParser._parse_education`: keeps a matched six-field entry iff
its fifth field contains `GPA`. -/
def parse_education (latex_content : Str) : Except PyErr (List EducationEntry) :=
  match sectionGroup1 eduHeading latex_content with
  | none => .error .typeError
  | some content =>
    .ok (((findAll eduMatcher content).filter
      (fun g => containsSub gpaTok g.2.2.2.2)).map mkEducationEntry)

/-- `LaTeXtoJSONParser._parse_publications` (correctly grouped pattern, so a
missing heading returns `None`). -/
def parse_publications (latex_content : Str) : Option (List PublicationEntry) :=
  (sectionGroup1b pubsHeading latex_content).map
    (fun content => (findAll pubMatcher content).map (fun g => ⟨g.1, g.2.1, pyStrip g.2.2⟩))

/-- `LaTeXtoJSONParser._parse_projects` (correctly grouped pattern). -/
def parse_projects (latex_content : Str) : Option (List ProjectEntry) :=
  (sectionGroup1b projsHeading latex_content).map
    (fun content => (findAll projMatcher content).map (fun g => ⟨pyStrip g.1, pyStrip g.2⟩))

/-- The `__AND__` to `\&` back-substitution of `replace_in_dict`. -/
def unsent (s : Str) : Str := replaceSub sentinelTok ampTok s

/-- `replace_in_dict` applied to one experience entry. -/
def replaceBackExperience (e : ExperienceEntry) : ExperienceEntry :=
  ⟨unsent e.company, unsent e.location,
   e.roles.map (fun r => ⟨unsent r.job_title, unsent r.period⟩),
   e.description.map unsent⟩

/-- `replace_in_dict` applied to the whole parsed dictionary. -/
def replaceBackDoc (r : ResumeDoc) : ResumeDoc :=
  ⟨r.skills.map (fun e => ⟨unsent e.skill, unsent e.details⟩),
   r.certificates.map (fun e => ⟨unsent e.year, unsent e.title⟩),
   r.experience.map replaceBackExperience,
   r.education.map (fun e => ⟨unsent e.year, unsent e.degree, unsent e.institution, unsent e.GPA⟩),
   r.publications.map (List.map (fun e => ⟨unsent e.year, unsent e.title, unsent e.description⟩)),
   r.projects.map (List.map (fun e => ⟨unsent e.name, unsent e.description⟩))⟩

/-- `LaTeXtoJSONParser.parse_resume`: sentinel substitution, body extraction
(`AttributeError` when the delimiters are missing, since `.group(1)` is
called on `None`), the six section parsers in source order, then the
recursive back-substitution. -/
def parse_resume (latex_content : Str) : Except PyErr ResumeDoc :=
  let t := replaceSub ampTok sentinelTok latex_content
  match bodyGroup1 t with
  | none => .error .attributeError
  | some body => do
    let skills ← parse_skills body
    let certificates ← parse_certificates body
    let experience ← parse_experience body
    let education ← parse_education body
    let publications := parse_publications body
    let projects := parse_projects body
    .ok (replaceBackDoc ⟨skills, certificates, experience, education, publications, projects⟩)

/-- A single newline, the separator emitted after each employer block. -/
def nlStr : Str := ['\n']

/-- The `\subsection{company}` line of `_json_to_latex_experience`. -/
def subsection_line (c : Str) : Str :=
  strL "\\subsection\x7b" ++ c ++ strL "\x7d\n"

/-- The first-role line of `_json_to_latex_experience`, carrying the
location in the third field. -/
def cv_line_loc (r : RoleEntry) (loc : Str) : Str :=
  strL "\\cventry\x7b" ++ r.period ++ strL "\x7d\x7b" ++ r.job_title ++
  strL "\x7d\x7b" ++ loc ++ strL "\x7d\x7b\x7d\x7b\x7d\x7b\x7d\n"

/-- The plain role line of `_json_to_latex_experience` (all four trailing
fields empty). -/
def cv_line_empty (r : RoleEntry) : Str :=
  strL "\\cventry\x7b" ++ r.period ++ strL "\x7d\x7b" ++ r.job_title ++
  strL "\x7d\x7b\x7d\x7b\x7d\x7b\x7d\x7b\x7d\n"

/-- The last-role line of `_json_to_latex_experience` when a description is
present: the final macro field holds an itemize block with one `\item` per
description string. -/
def cv_line_desc (r : RoleEntry) (desc : List Str) : Str :=
  strL "\\cventry\x7b" ++ r.period ++ strL "\x7d\x7b" ++ r.job_title ++
  strL "\x7d\x7b\x7d\x7b\x7d\x7b\x7d\x7b\n" ++
  strL "    \\begin\x7bitemize\x7d\n" ++
  desc.foldl (fun acc item => acc ++ strL "        \\item " ++ item ++ nlStr) [] ++
  strL "    \\end\x7bitemize\x7d\n" ++
  strL "\x7d\n"

/-- The `enumerate(company["roles"])` loop body of
`_json_to_latex_experience`: `i` is the running index, `n` the role count. -/
def gen_roles_aux (loc : Str) (desc : List Str) (n : Nat) : Nat → List RoleEntry → Str
  | _, [] => []
  | i, r :: rs =>
    (if i = n - 1 ∧ desc ≠ [] then cv_line_desc r desc
     else if i = 0 then cv_line_loc r loc
     else cv_line_empty r) ++ gen_roles_aux loc desc n (i + 1) rs

/-- The markup emitted for one employer by `_json_to_latex_experience`
(subsection line, role lines, blank separator line). -/
def json_to_latex_company (e : ExperienceEntry) : Str :=
  subsection_line e.company ++
  gen_roles_aux e.location e.description e.roles.length 0 e.roles ++ nlStr

/-- `Resume._json_to_latex_experience`. -/
def json_to_latex_experience (experience_data : List ExperienceEntry) : Str :=
  experience_data.foldl (fun acc e => acc ++ json_to_latex_company e) []

/-- The `.replace("\\", "\\\\")` applied to the generated block before it is
used as a `re.sub` replacement template. -/
def escBackslash (s : Str) : Str := replaceSub (strL "\\") (strL "\\\\") s

/-- Interpretation of a `re.sub` replacement template: `\\` emits one
backslash.  Group references and bad escapes cannot arise here because
`create` doubles every backslash of the template first; a template ending in
a lone backslash or containing a single one is passed through unchanged. -/
def applyTemplate : Str → Str
  | [] => []
  | [c] => [c]
  | c1 :: c2 :: t =>
    if c1 = '\\' then
      (if c2 = '\\' then '\\' :: applyTemplate t else c1 :: c2 :: applyTemplate t)
    else c1 :: applyTemplate (c2 :: t)

/-- Scanning loop of `re.sub((?<=\\section{Experience}).*?(?=\\section), rep,
s, re.DOTALL)` from position `start`: each match begins right after an
occurrence of the experience heading and ends (zero-width lookahead) at the
next `\section`; scanning resumes there.  A heading with no later `\section`
means no further match anywhere, so the rest of the string is kept.  `fuel`
only bounds the recursion; every step advances past a whole heading, so
`s.length + 1` is never exhausted. -/
def spliceAux (rep s : Str) : Nat → Nat → Str
  | 0, start => s.drop start
  | fuel + 1, start =>
    match findFrom expHeading s start with
    | none => s.drop start
    | some i =>
      match findFrom sectionTok s (i + expHeading.length) with
      | none => s.drop start
      | some j =>
        sliceStr s start (i + expHeading.length) ++ rep ++ spliceAux rep s fuel j

/-- The `re.sub` call of `Resume.create`, given the replacement template. -/
def re_sub_experience (template s : Str) : Str :=
  spliceAux (applyTemplate template) s (s.length + 1) 0

/-- The splice of `Resume.create` applied to tailored entries: serialize,
double the backslashes, substitute the experience spans of `doc`. -/
def regenerate_experience (tailored : List ExperienceEntry) (doc : Str) : Str :=
  re_sub_experience (escBackslash (json_to_latex_experience tailored)) doc

/-- `Resume.load` followed by `Resume.create` with the identity in place of
the AI rewrite (tailored entries identical to the parsed ones). -/
def load_create (doc : Str) : Except PyErr Str :=
  match parse_personal_information doc with
  | .error e => .error e
  | .ok _ =>
    match parse_resume doc with
    | .error e => .error e
    | .ok r => .ok (regenerate_experience r.experience doc)

/-- `Resume.load` alone: the composite parse of a document (personal
information first, then the structured resume), as the spec's `parse`. -/
def load_parse (doc : Str) : Except PyErr (PersonalInfo × ResumeDoc) :=
  match parse_personal_information doc with
  | .error e => .error e
  | .ok pinfo =>
    match parse_resume doc with
    | .error e => .error e
    | .ok r => .ok (pinfo, r)

/-- Canonical first/last-role serialization for one employer, following the
spec's regeneration steps (location only on the very first role, description
only on the last role); proved below to agree with the source's index-based
loop `gen_roles_aux`. -/
def gen_roles_canon (loc : Str) (desc : List Str) (isFirst : Bool) : List RoleEntry → Str
  | [] => []
  | r :: rs =>
    if rs = [] then
      (if desc ≠ [] then cv_line_desc r desc
       else if isFirst then cv_line_loc r loc else cv_line_empty r)
    else
      (if isFirst then cv_line_loc r loc else cv_line_empty r) ++
      gen_roles_canon loc desc false rs

/-- Serialization of the non-first roles of an employer.  It takes no
location argument at all: after the first role line, the location cannot
occur in any emitted macro. -/
def gen_roles_rest (desc : List Str) : List RoleEntry → Str
  | [] => []
  | r :: rs =>
    if rs = [] then (if desc ≠ [] then cv_line_desc r desc else cv_line_empty r)
    else cv_line_empty r ++ gen_roles_rest desc rs

/-- Modelled from the spec: removing the font-style wrapper macro
`\textit{...}` from a field (the spec's reading of "the fifth field with the
font-style wrapper macro stripped"), for comparison with the source's
character-set `strip`. -/
def stripFontWrapper (s : Str) : Str :=
  if (strL "\\textit\x7b").isPrefixOf s ∧ s.getLast? = some '\x7d' then
    (s.drop 8).dropLast
  else s

theorem subFind_spec (needle : Str) :
    ∀ (l : Str) (m : Nat), subFind needle l = some m → needle <+: l.drop m := by
  intro l
  induction l with
  | nil =>
    intro m h
    simp only [subFind] at h
    split at h
    · rename_i hn
      cases h
      simp [hn]
    · cases h
  | cons c t ih =>
    intro m h
    simp only [subFind] at h
    split at h
    · rename_i hp
      cases h
      simpa using (List.isPrefixOf_iff_prefix.mp hp)
    · rcases Option.map_eq_some'.mp h with ⟨m', hm', rfl⟩
      simpa using ih m' hm'

theorem findFrom_spec {needle s : Str} {st i : Nat}
    (h : findFrom needle s st = some i) : st ≤ i ∧ needle <+: s.drop i := by
  unfold findFrom at h
  rcases Option.map_eq_some'.mp h with ⟨m, hm, rfl⟩
  refine ⟨Nat.le_add_left _ _, ?_⟩
  have := subFind_spec needle (s.drop st) m hm
  rwa [List.drop_drop, Nat.add_comm] at this

theorem take_slice_drop {s : Str} {a b : Nat} (hab : a ≤ b) :
    s.take a ++ sliceStr s a b ++ s.drop b = s := by
  have h1 : s.drop b = (s.drop a).drop (b - a) := by
    rw [List.drop_drop]
    congr 1
    omega
  rw [List.append_assoc, sliceStr, h1, List.take_append_drop, List.take_append_drop]

theorem replaceSubFuel_bs_ne_nil (fuel : Nat) (c : Char) (t : Str) :
    replaceSubFuel (strL "\\") (strL "\\\\") fuel (c :: t) ≠ [] := by
  cases fuel with
  | zero => simp [replaceSubFuel]
  | succ f =>
    simp only [replaceSubFuel]
    split
    · simp [strL]
    · simp

theorem applyTemplate_replaceSubFuel_bs :
    ∀ (s : Str) (fuel : Nat), s.length ≤ fuel →
      applyTemplate (replaceSubFuel (strL "\\") (strL "\\\\") fuel s) = s := by
  intro s
  induction s with
  | nil => intro fuel _; cases fuel <;> simp [replaceSubFuel, applyTemplate]
  | cons c t ih =>
    intro fuel hf
    cases fuel with
    | zero => simp at hf
    | succ f =>
      have hft : t.length ≤ f := by simp at hf; omega
      simp only [replaceSubFuel]
      by_cases hc : c = '\\'
      · subst hc
        have hpre : (strL "\\").isPrefixOf ('\\' :: t) = true := by
          simp [strL, List.isPrefixOf]
        rw [if_pos ⟨by simp [strL], hpre⟩]
        have hdrop : ('\\' :: t).drop (strL "\\").length = t := by simp [strL]
        rw [hdrop]
        show applyTemplate ('\\' :: '\\' :: replaceSubFuel _ _ f t) = _
        cases hrt : replaceSubFuel (strL "\\") (strL "\\\\") f t with
        | nil =>
          have ht : t = [] := by
            cases t with
            | nil => rfl
            | cons d t2 => exact absurd hrt (replaceSubFuel_bs_ne_nil f d t2)
          subst ht
          simp [applyTemplate]
        | cons x xs =>
          have hx := ih f hft
          rw [hrt] at hx
          simp [applyTemplate, hx]
      · have hcond : ¬(strL "\\" ≠ [] ∧ (strL "\\").isPrefixOf (c :: t) = true) := by
          rintro ⟨-, hp⟩
          rcases List.isPrefixOf_iff_prefix.mp hp with ⟨t2, ht2⟩
          apply hc
          have hcc : '\\' :: t2 = c :: t := by simpa [strL] using ht2
          exact (List.cons.injEq _ _ _ _ ▸ hcc).1.symm
        rw [if_neg hcond]
        cases hrt : replaceSubFuel (strL "\\") (strL "\\\\") f t with
        | nil =>
          have ht : t = [] := by
            cases t with
            | nil => rfl
            | cons d t2 => exact absurd hrt (replaceSubFuel_bs_ne_nil f d t2)
          subst ht
          simp [applyTemplate]
        | cons x xs =>
          have hx := ih f hft
          rw [hrt] at hx
          simp [applyTemplate, hc, hx]

/-- Doubling every backslash of the generated block makes the `re.sub`
template pass exactly restore it: the escape/template round trip is the
identity. -/
theorem applyTemplate_escBackslash (s : Str) : applyTemplate (escBackslash s) = s :=
  applyTemplate_replaceSubFuel_bs s s.length (Nat.le_refl _)

/-- When the experience heading occurs, a `\section` follows it, and no
further heading occurs from that `\section` on, the substitution rewrites
exactly the span between them and keeps every byte outside it. -/
theorem re_sub_single {template doc : Str} {i j : Nat}
    (hI : findFrom expHeading doc 0 = some i)
    (hJ : findFrom sectionTok doc (i + expHeading.length) = some j)
    (hN : findFrom expHeading doc j = none) :
    re_sub_experience template doc =
      doc.take (i + expHeading.length) ++ applyTemplate template ++ doc.drop j := by
  have h1 := (findFrom_spec hI).2
  have h20 : expHeading.length = 20 := by decide
  have hlen : 20 + i ≤ doc.length := by
    have hle := h1.length_le
    simp only [List.length_drop, h20] at hle
    omega
  obtain ⟨n, hn⟩ : ∃ n, doc.length = n + 1 := ⟨doc.length - 1, by omega⟩
  unfold re_sub_experience
  rw [hn]
  simp only [spliceAux, hI, hJ, hN]
  simp [sliceStr]

/-- The source's index-based role-serialization loop agrees with the
structural first/last characterization `gen_roles_canon`. -/
theorem gen_roles_aux_canon (loc : Str) (desc : List Str) :
    ∀ (rs : List RoleEntry) (i n : Nat), n = i + rs.length →
      gen_roles_aux loc desc n i rs = gen_roles_canon loc desc (i == 0) rs := by
  intro rs
  induction rs with
  | nil => intro i n _; simp [gen_roles_aux, gen_roles_canon]
  | cons r rs ih =>
    intro i n hn
    simp only [gen_roles_aux, gen_roles_canon]
    cases rs with
    | nil =>
      have hlast : i = n - 1 := by simp at hn; omega
      have hcond : (i = n - 1 ∧ desc ≠ []) ↔ desc ≠ [] :=
        ⟨fun h => h.2, fun h => ⟨hlast, h⟩⟩
      by_cases hd : desc = []
      · by_cases hi : i = 0 <;> simp [gen_roles_aux, gen_roles_canon, hcond, hd, hi]
      · simp [gen_roles_aux, gen_roles_canon, hcond, hd, hlast]
    | cons d rs2 =>
      have hnl : ¬(i = n - 1 ∧ desc ≠ []) := by
        rintro ⟨hi, -⟩
        simp [List.length_cons] at hn
        omega
      rw [if_neg hnl, if_neg (by simp : ¬(d :: rs2 = []))]
      have hrec := ih (i + 1) n (by simp at hn ⊢; omega)
      have : ((i + 1) == 0) = false := by simp
      rw [this] at hrec
      rw [hrec]
      by_cases hi : i = 0 <;> simp [hi]

/-- The per-company serialization in first/last form. -/
theorem json_to_latex_company_canon (e : ExperienceEntry) :
    json_to_latex_company e =
      subsection_line e.company ++
      gen_roles_canon e.location e.description true e.roles ++ nlStr := by
  unfold json_to_latex_company
  rw [gen_roles_aux_canon e.location e.description e.roles 0 e.roles.length (by simp)]
  rfl

/-- After the first role, the canonical serialization does not depend on the
location at all. -/
theorem gen_roles_canon_false_rest (loc : Str) (desc : List Str) :
    ∀ rs : List RoleEntry, gen_roles_canon loc desc false rs = gen_roles_rest desc rs := by
  intro rs
  induction rs with
  | nil => rfl
  | cons r rs ih =>
    simp only [gen_roles_canon, gen_roles_rest]
    cases rs with
    | nil => simp
    | cons d rs2 => simp [ih]

/-- Membership in a successful `mapMExc` run comes from a successful
application of `f` to some input element. -/
theorem mapMExc_mem {f : α → Except PyErr β} :
    ∀ {xs : List α} {bs : List β}, mapMExc f xs = .ok bs →
      ∀ b ∈ bs, ∃ x ∈ xs, f x = .ok b := by
  intro xs
  induction xs with
  | nil =>
    intro bs h b hb
    simp only [mapMExc] at h
    cases h
    simp at hb
  | cons x xs ih =>
    intro bs h b hb
    simp only [mapMExc] at h
    cases hfx : f x with
    | error e => rw [hfx] at h; simp at h
    | ok b0 =>
      rw [hfx] at h
      cases hrest : mapMExc f xs with
      | error e2 => rw [hrest] at h; simp at h
      | ok bs0 =>
        rw [hrest] at h
        simp only [Except.ok.injEq] at h
        subst h
        rcases List.mem_cons.mp hb with hb0 | hbs
        · exact ⟨x, List.mem_cons_self x xs, by rw [hfx, hb0]⟩
        · rcases ih hrest b hbs with ⟨x2, hx2, hfx2⟩
          exact ⟨x2, List.mem_cons_of_mem x hx2, hfx2⟩

/-- A successfully parsed employer always has at least one role
(`roles[0]` would have raised `IndexError` otherwise). -/
theorem parseCompany_ok_roles {a b : Str} {e : ExperienceEntry}
    (h : parseCompany a b = .ok e) : e.roles ≠ [] := by
  cases hr : (findAll roleMatcher (pyStrip b)).head? with
  | none => simp [parseCompany, hr] at h
  | some r0 =>
    simp only [parseCompany, hr, Except.ok.injEq] at h
    subst h
    have hne : findAll roleMatcher (pyStrip b) ≠ [] := by
      intro hnil
      rw [hnil] at hr
      cases hr
    simp [hne]

theorem dropWhile_append_all {p : Char → Bool} :
    ∀ {a b : Str}, (∀ c ∈ a, p c = true) → (a ++ b).dropWhile p = b.dropWhile p := by
  intro a
  induction a with
  | nil => intro b _; rfl
  | cons c t ih =>
    intro b h
    have hc : p c = true := h c (List.mem_cons_self c t)
    simp only [List.cons_append, List.dropWhile_cons, hc, if_pos]
    exact ih (fun d hd => h d (List.mem_cons_of_mem c hd))

/-- On a wrapped field whose inner text neither starts nor ends with one of
the characters of `"\textit{}"`, the source's character-set `strip` does
remove exactly the wrapper. -/
theorem stripSet_textit_wrapper {inner : Str} {hc zc : Char}
    (hhd : inner.head? = some hc) (hlast : inner.getLast? = some zc)
    (hh : hc ∉ strL "\\textit\x7b\x7d") (hz : zc ∉ strL "\\textit\x7b\x7d") :
    stripSet (strL "\\textit\x7b\x7d") (strL "\\textit\x7b" ++ inner ++ strL "\x7d") = inner := by
  cases inner with
  | nil => cases hhd
  | cons c0 tl =>
    have hc0 : c0 = hc := by simp at hhd; exact hhd
    subst hc0
    unfold stripSet stripBy
    have hW : ∀ c ∈ strL "\\textit\x7b", (decide (c ∈ strL "\\textit\x7b\x7d")) = true := by decide
    rw [List.append_assoc, dropWhile_append_all hW]
    have hstop : (decide (c0 ∈ strL "\\textit\x7b\x7d")) = false := by
      simpa using hh
    simp only [List.cons_append]
    have h1 : List.dropWhile (fun c => decide (c ∈ strL "\\textit\x7b\x7d"))
        (c0 :: (tl ++ strL "\x7d")) = c0 :: (tl ++ strL "\x7d") := by
      simp [List.dropWhile_cons, hstop]
    rw [h1]
    have h2 : (c0 :: (tl ++ strL "\x7d")).reverse = '\x7d' :: (c0 :: tl).reverse := by
      simp [strL]
    rw [h2]
    have hbr : (decide ('\x7d' ∈ strL "\\textit\x7b\x7d")) = true := by decide
    have h3 : List.dropWhile (fun c => decide (c ∈ strL "\\textit\x7b\x7d"))
        ('\x7d' :: (c0 :: tl).reverse) =
        List.dropWhile (fun c => decide (c ∈ strL "\\textit\x7b\x7d")) ((c0 :: tl).reverse) := by
      simp [List.dropWhile_cons, hbr]
    rw [h3]
    cases hr : (c0 :: tl).reverse with
    | nil => simp at hr
    | cons z w =>
      have hzz : z = zc := by
        have hgl : (c0 :: tl).reverse.head? = (c0 :: tl).getLast? := List.head?_reverse _
        rw [hr, hlast] at hgl
        simpa using hgl
      subst hzz
      have hzstop : (decide (z ∈ strL "\\textit\x7b\x7d")) = false := by simpa using hz
      have h4 : List.dropWhile (fun c => decide (c ∈ strL "\\textit\x7b\x7d")) (z :: w) = z :: w := by
        simp [List.dropWhile_cons, hzstop]
      rw [h4, ← hr, List.reverse_reverse]

/-- On the same wrapped fields, the spec-level wrapper removal gives the
inner text. -/
theorem stripFontWrapper_wrap (inner : Str) :
    stripFontWrapper (strL "\\textit\x7b" ++ inner ++ strL "\x7d") = inner := by
  unfold stripFontWrapper
  have hpre : (strL "\\textit\x7b").isPrefixOf (strL "\\textit\x7b" ++ inner ++ strL "\x7d") = true := by
    apply List.isPrefixOf_iff_prefix.mpr
    exact ⟨inner ++ strL "\x7d", by simp⟩
  have hlast : (strL "\\textit\x7b" ++ inner ++ strL "\x7d").getLast? = some '\x7d' := by
    rw [show strL "\\textit\x7b" ++ inner ++ strL "\x7d" = (strL "\\textit\x7b" ++ inner) ++ ['\x7d'] from by simp [strL]]
    simp
  rw [if_pos ⟨hpre, hlast⟩]
  rw [show (8 : Nat) = (strL "\\textit\x7b").length from by decide]
  rw [List.append_assoc, List.drop_left]
  rw [show inner ++ strL "\x7d" = inner ++ ['\x7d'] from by simp [strL]]
  simp

set_option maxRecDepth 100000

/-- A well-formed document (anchors, delimiters, all six sections) whose
only deviation is that the `Skills` heading is absent. -/
def c2Doc : Str :=
  strL "\\name\x7bAda\x7d\x7bLovelace\x7d\\address\x7bAddr\x7d\\phone[mobile]\x7b555\x7d\\email\x7ba@b.c\x7d\\begin\x7bdocument\x7dno sections here\\end\x7bdocument\x7d"

/-- The same document with every section except `Projects`. -/
def c2bDoc : Str :=
  strL "\\name\x7bAda\x7d\x7bLovelace\x7d\\address\x7bAddr\x7d\\phone[mobile]\x7b555\x7d\\email\x7ba@b.c\x7d\\begin\x7bdocument\x7d\\section\x7bSkills\x7d\\cvitem\x7bS\x7d\x7bD\x7d\\section\x7bCertifications\x7d\\cvitem\x7b2020\x7d\x7bCert\x7d\\section\x7bExperience\x7d\\subsection\x7bCo\x7d\\cventry\x7b2020\x7d\x7bDev\x7d\x7bLoc\x7d\x7b\x7d\x7b\x7d\x7b\x7d\\section\x7bEducation\x7d\\cventry\x7b2019\x7d\x7bBS\x7d\x7b\x7d\x7bU\x7d\x7bGPA 4.0\x7d\x7b\x7d\\section\x7bPublications\x7d\\end\x7bdocument\x7d"

/-- C2 (code bug): on a document without a `Skills` heading the parser does
not silently omit the section.  `_parse_skills` falls into the degenerate
`$` match of its mis-grouped pattern, passes `None` to `re.findall` and
raises `TypeError`, so the whole `parse_resume` call fails; the same happens
for certificates, experience and education.  Only `_parse_publications` and
`_parse_projects` (whose patterns group the alternation) omit silently: a
document missing just the `Projects` heading does parse, with `projects`
absent. -/
theorem c2_missing_section_raises :
    parse_skills (strL "no sections here") = .error .typeError ∧
    parse_certificates (strL "no sections here") = .error .typeError ∧
    parse_experience (strL "no sections here") = .error .typeError ∧
    parse_education (strL "no sections here") = .error .typeError ∧
    parse_resume c2Doc = .error .typeError ∧
    parse_publications (strL "no sections here") = none ∧
    parse_projects (strL "no sections here") = none ∧
    (parse_resume c2bDoc).toOption.map (fun r => r.projects) = some none := by decide

/-- A well-formed document carrying `\&` in the address anchor and in a
skill detail. -/
def c3Doc : Str :=
  strL "\\name\x7bAda\x7d\x7bLovelace\x7d\\address\x7b12 \\& Main\x7d\\phone[mobile]\x7b555\x7d\\email\x7ba@b.c\x7d\\begin\x7bdocument\x7d\\section\x7bSkills\x7d\\cvitem\x7bS\x7d\x7bA \\& B\x7d\\section\x7bCertifications\x7d\\cvitem\x7b2020\x7d\x7bCert\x7d\\section\x7bExperience\x7d\\subsection\x7bCo\x7d\\cventry\x7b2020\x7d\x7bDev\x7d\x7bLoc\x7d\x7b\x7d\x7b\x7d\x7b\x7d\\section\x7bEducation\x7d\\cventry\x7b2019\x7d\x7bBS\x7d\x7b\x7d\x7bU\x7d\x7bGPA 4.0\x7d\x7b\x7d\\section\x7bPublications\x7d\\section\x7bProjects\x7d\\end\x7bdocument\x7d"

/-- C3 (code bug): `parse_personal_information` substitutes `\&` by the
sentinel but never substitutes it back, so the returned address field leaks
the literal `__AND__`; by contrast `parse_resume` restores `\&` in section
fields (here a skill detail), as the spec requires for every returned
string. -/
theorem c3_sentinel_leak :
    parse_personal_information c3Doc =
      .ok ⟨strL "Ada Lovelace", strL "12 __AND__ Main", strL "555", strL "a@b.c"⟩ ∧
    containsSub sentinelTok (strL "12 __AND__ Main") = true ∧
    (parse_resume c3Doc).toOption.map (fun r => r.skills) =
      some [⟨strL "S", strL "A \\& B"⟩] := by decide

/-- C4: the splice of `Resume.create` is a total function of its inputs, and
on any original text in which the experience heading does not occur the
`re.sub` finds no match and returns the text unchanged. -/
theorem c4_no_heading_noop (tailored : List ExperienceEntry) (doc : Str)
    (h : findFrom expHeading doc 0 = none) :
    regenerate_experience tailored doc = doc := by
  unfold regenerate_experience re_sub_experience
  simp only [spliceAux, h]
  exact List.drop_zero doc

/-- Witness for C4 at a concrete document without an experience heading. -/
theorem c4_witness :
    findFrom expHeading (strL "\\section\x7bSkills\x7dabc") 0 = none ∧
    regenerate_experience [⟨strL "Co", strL "L", [⟨strL "Dev", strL "2020"⟩], [strL "x"]⟩]
        (strL "\\section\x7bSkills\x7dabc") = strL "\\section\x7bSkills\x7dabc" :=
  ⟨by decide, c4_no_heading_noop _ _ (by decide)⟩

/-- Anchors present, but no `\begin{document}`. -/
def c5Doc : Str :=
  strL "\\name\x7bAda\x7d\x7bLovelace\x7d\\address\x7bAddr\x7d\\phone[mobile]\x7b555\x7d\\email\x7ba@b.c\x7dno document body"

/-- C5 (counterexample): with all four anchors present and the body
delimiters missing, the composite parse fails with `AttributeError`, not
with the spec's `MalformedDocumentError` — no such class exists in the
source. -/
theorem c5_counterexample :
    findFrom beginDocTok (replaceSub ampTok sentinelTok c5Doc) 0 = none ∧
    load_parse c5Doc = .error .attributeError ∧
    load_parse c5Doc ≠ .error .malformedDocumentError := by decide

/-- Any missing personal-info anchor makes `parse_personal_information`
fail with `AttributeError`: the dict literal evaluates the four `.group`
calls in source order (name, address, phone, email), and whichever anchor is
missing first supplies the `None` on which `.group` raises. -/
theorem parse_personal_anchor_err (doc : Str)
    (h : searchFirst nameMatcher (replaceSub ampTok sentinelTok doc) = none ∨
         searchFirst addressMatcher (replaceSub ampTok sentinelTok doc) = none ∨
         searchFirst phoneMatcher (replaceSub ampTok sentinelTok doc) = none ∨
         searchFirst emailMatcher (replaceSub ampTok sentinelTok doc) = none) :
    parse_personal_information doc = .error .attributeError := by
  simp only [parse_personal_information]
  rcases h with hn | ha | hp | he
  · simp only [hn]
  · cases hn : searchFirst nameMatcher (replaceSub ampTok sentinelTok doc) with
    | none => simp only [hn]
    | some ng => simp only [hn, ha]
  · cases hn : searchFirst nameMatcher (replaceSub ampTok sentinelTok doc) with
    | none => simp only [hn]
    | some ng =>
      cases ha : searchFirst addressMatcher (replaceSub ampTok sentinelTok doc) with
      | none => simp only [hn, ha]
      | some a => simp only [hn, ha, hp]
  · cases hn : searchFirst nameMatcher (replaceSub ampTok sentinelTok doc) with
    | none => simp only [hn]
    | some ng =>
      cases ha : searchFirst addressMatcher (replaceSub ampTok sentinelTok doc) with
      | none => simp only [hn, ha]
      | some a =>
        cases hp : searchFirst phoneMatcher (replaceSub ampTok sentinelTok doc) with
        | none => simp only [hn, ha, hp]
        | some p => simp only [hn, ha, hp, he]

/-- C5 (amended): the parse does fail on both malformed classes of input,
producing no document at all — but with the untyped Python `AttributeError`
(`.group` called on `None`), not with the spec's two error classes.  The
five conjuncts cover every case of the claim: each of the four personal-info
anchors absent (name, address, phone, email), and the document-body
delimiters missing — `bodyGroup1 … = none` holds exactly when
`\begin{document}` does not occur or no `\end{document}` follows it. -/
theorem c5_fails_untyped (doc : Str) :
    (searchFirst nameMatcher (replaceSub ampTok sentinelTok doc) = none →
      load_parse doc = .error .attributeError) ∧
    (searchFirst addressMatcher (replaceSub ampTok sentinelTok doc) = none →
      load_parse doc = .error .attributeError) ∧
    (searchFirst phoneMatcher (replaceSub ampTok sentinelTok doc) = none →
      load_parse doc = .error .attributeError) ∧
    (searchFirst emailMatcher (replaceSub ampTok sentinelTok doc) = none →
      load_parse doc = .error .attributeError) ∧
    (∀ pinfo, parse_personal_information doc = .ok pinfo →
      bodyGroup1 (replaceSub ampTok sentinelTok doc) = none →
      load_parse doc = .error .attributeError) := by
  refine ⟨fun hn => ?_, fun ha => ?_, fun hp => ?_, fun he => ?_, fun pinfo hpi hb => ?_⟩
  · simp only [load_parse, parse_personal_anchor_err doc (Or.inl hn)]
  · simp only [load_parse, parse_personal_anchor_err doc (Or.inr (Or.inl ha))]
  · simp only [load_parse, parse_personal_anchor_err doc (Or.inr (Or.inr (Or.inl hp)))]
  · simp only [load_parse, parse_personal_anchor_err doc (Or.inr (Or.inr (Or.inr he)))]
  · have hr : parse_resume doc = .error .attributeError := by
      simp only [parse_resume, hb]
    simp only [load_parse, hpi, hr]

/-- Anchors present and `\begin{document}` present, but no `\end{document}`
after it. -/
def c5bDoc : Str :=
  strL "\\name\x7bAda\x7d\x7bLovelace\x7d\\address\x7bAddr\x7d\\phone[mobile]\x7b555\x7d\\email\x7ba@b.c\x7d\\begin\x7bdocument\x7dunterminated body"

/-- Witness for C5 at concrete inputs: one document per missing anchor
(name, address, phone, email), the anchors-but-no-`\begin{document}`
document `c5Doc`, and the unterminated-body document `c5bDoc`. -/
theorem c5_witness :
    load_parse (strL "\\address\x7bAddr\x7d\\phone[mobile]\x7b555\x7d\\email\x7ba@b.c\x7d") =
      .error .attributeError ∧
    load_parse (strL "\\name\x7bAda\x7d\x7bB\x7d\\phone[mobile]\x7b555\x7d\\email\x7ba@b.c\x7d") =
      .error .attributeError ∧
    load_parse (strL "\\name\x7bAda\x7d\x7bB\x7d\\address\x7bAddr\x7d\\email\x7ba@b.c\x7d") =
      .error .attributeError ∧
    load_parse (strL "\\name\x7bAda\x7d\x7bB\x7d\\address\x7bAddr\x7d\\phone[mobile]\x7b555\x7d") =
      .error .attributeError ∧
    load_parse c5Doc = .error .attributeError ∧
    load_parse c5bDoc = .error .attributeError :=
  ⟨(c5_fails_untyped _).1 (by decide),
   (c5_fails_untyped _).2.1 (by decide),
   (c5_fails_untyped _).2.2.1 (by decide),
   (c5_fails_untyped _).2.2.2.1 (by decide),
   (c5_fails_untyped _).2.2.2.2 ⟨strL "Ada Lovelace", strL "Addr", strL "555", strL "a@b.c"⟩
     (by decide) (by decide),
   (c5_fails_untyped _).2.2.2.2 ⟨strL "Ada Lovelace", strL "Addr", strL "555", strL "a@b.c"⟩
     (by decide) (by decide)⟩

/-- A document in which the experience heading occurs twice, each time
followed by another `\section`. -/
def c6Doc : Str :=
  strL "\\section\x7bExperience\x7dA\\section\x7bX\x7d\\section\x7bExperience\x7dB\\section\x7bY\x7d"

/-- C6 (counterexample): `re.sub` replaces every heading-delimited span, so
on a text with two experience headings the output also loses the `B` span,
differing from the input outside the span of the first heading (which is the
result the claim requires, shown on the right of the inequality). -/
theorem c6_counterexample :
    regenerate_experience [] c6Doc =
      strL "\\section\x7bExperience\x7d\\section\x7bX\x7d\\section\x7bExperience\x7d\\section\x7bY\x7d" ∧
    regenerate_experience [] c6Doc ≠
      c6Doc.take 20 ++ json_to_latex_experience [] ++ c6Doc.drop 21 := by decide

/-- C6 (amended): when the experience heading occurs exactly once (with a
later `\section`), the splice output keeps every byte up to and including
the heading, keeps every byte from the next `\section` on, and replaces only
the span strictly between them by the serialized entries. -/
theorem c6_frame (tailored : List ExperienceEntry) (doc : Str) (i j : Nat)
    (hI : findFrom expHeading doc 0 = some i)
    (hJ : findFrom sectionTok doc (i + expHeading.length) = some j)
    (hN : findFrom expHeading doc j = none) :
    regenerate_experience tailored doc =
      doc.take (i + expHeading.length) ++ json_to_latex_experience tailored ++ doc.drop j := by
  unfold regenerate_experience
  rw [re_sub_single hI hJ hN, applyTemplate_escBackslash]

/-- Concrete single-heading document for the C6 witness. -/
def c6WDoc : Str := strL "A\\section\x7bExperience\x7dB\\section\x7bC\x7d"

/-- Concrete tailored entries for the C6 witness. -/
def c6Es : List ExperienceEntry :=
  [⟨strL "Co", strL "L", [⟨strL "Dev", strL "2020"⟩], [strL "did x"]⟩]

/-- Witness for C6 at a concrete single-heading document. -/
theorem c6_witness :
    findFrom expHeading c6WDoc 0 = some 1 ∧
    regenerate_experience c6Es c6WDoc =
      c6WDoc.take (1 + expHeading.length) ++ json_to_latex_experience c6Es ++ c6WDoc.drop 22 :=
  ⟨by decide, c6_frame c6Es c6WDoc 1 22 (by decide) (by decide) (by decide)⟩

/-- C10: whenever `_parse_experience` succeeds, every parsed employer has at
least one role: an employer subheading without a role macro sends
`roles[0][2]` into an `IndexError`, so no document is produced. -/
theorem c10_roles_nonempty (body : Str) (es : List ExperienceEntry)
    (h : parse_experience body = .ok es) :
    ∀ e ∈ es, e.roles ≠ [] := by
  unfold parse_experience at h
  cases hs : sectionGroup1 expHeading body with
  | none => rw [hs] at h; cases h
  | some content =>
    rw [hs] at h
    intro e he
    rcases mapMExc_mem h e he with ⟨cp, _, hcp⟩
    exact parseCompany_ok_roles hcp

/-- Concrete experience section for the C10 witness. -/
def c10Body : Str :=
  strL "\\section\x7bExperience\x7d\\subsection\x7bCo\x7d\\cventry\x7b2020\x7d\x7bDev\x7d\x7bLoc\x7d\x7b\x7d\x7b\x7d\x7b\x7d\\section\x7bEnd\x7d"

/-- Parse result of `c10Body`. -/
def c10Es : List ExperienceEntry :=
  [⟨strL "Co", strL "Loc", [⟨strL "Dev", strL "2020"⟩], []⟩]

/-- Witness for C10: `c10Body` parses successfully and every entry has a
nonempty role list.  A companion fact: the same section with the role macro
removed fails with `IndexError`. -/
theorem c10_witness :
    (parse_experience c10Body = .ok c10Es ∧
      parse_experience (strL "\\section\x7bExperience\x7d\\subsection\x7bCo\x7dtext\\section\x7bEnd\x7d") =
        .error .indexError) ∧
    ∀ e ∈ c10Es, e.roles ≠ [] :=
  ⟨by decide, c10_roles_nonempty c10Body c10Es (by decide)⟩

/-- C7: for an employer span with at least one itemize block, parsing
attaches exactly the stripped bullets of the LAST block as the description,
and serializing the parsed entry emits the description only inside the final
role macro: in the first/last normal form `gen_roles_canon`, every non-final
role line is one of the description-free templates `cv_line_loc` /
`cv_line_empty`. -/
theorem c7_last_block (nm cc : Str) (e : ExperienceEntry) (blocks : List Str)
    (hbne : blocks ≠ [])
    (hb : findAll itemizeMatcher (pyStrip cc) = blocks)
    (he : parseCompany nm cc = .ok e) :
    e.description = (findAll itemMatcher (blocks.getLast hbne)).map pyStrip ∧
    json_to_latex_company e =
      subsection_line e.company ++
      gen_roles_canon e.location e.description true e.roles ++ nlStr := by
  refine ⟨?_, json_to_latex_company_canon e⟩
  cases hr : (findAll roleMatcher (pyStrip cc)).head? with
  | none => simp [parseCompany, hr] at he
  | some r0 =>
    simp only [parseCompany, hr, Except.ok.injEq] at he
    subst he
    dsimp only
    rw [hb, List.getLast?_eq_getLast blocks hbne]

/-- An employer with one role carrying a location and a description. -/
def c8Cc : Str :=
  strL "\\cventry\x7b2020\x7d\x7bDev\x7d\x7bToronto\x7d\x7b\x7d\x7b\x7d\x7b\x7d\n\\begin\x7bitemize\x7d\n\\item Led team\n\\end\x7bitemize\x7d"

/-- Parse result of `c8Cc` under employer name `Co`. -/
def c8E : ExperienceEntry :=
  ⟨strL "Co", strL "Toronto", [⟨strL "Dev", strL "2020"⟩], [strL "Led team"]⟩

/-- C8 (counterexample): for a single-role employer whose role macro carries
a non-empty third field and whose description is non-empty, the parsed
location is that field, but regeneration takes the last-role-with-description
branch and drops the location entirely: `Toronto` does not occur anywhere in
the generated markup. -/
theorem c8_counterexample :
    parseCompany (strL "Co") c8Cc = .ok c8E ∧
    c8E.location = strL "Toronto" ∧
    containsSub (strL "Toronto") (json_to_latex_company c8E) = false := by decide

/-- C8 (amended): for an employer with at least two role macros, the parsed
location is the third field of the first macro, and regeneration emits it in
the third field of the first emitted role line only — the remaining lines
are produced by `gen_roles_rest`, which takes no location argument at all.
(The claim's hypotheses that only the first macro has a non-empty third
field are kept; for single-role employers with a description the location is
dropped instead, see the counterexample.) -/
theorem c8_location_first (nm cc : Str) (e : ExperienceEntry)
    (p0 t0 loc : Str) (tr1 : Str × Str × Str) (rest : List (Str × Str × Str))
    (hr : findAll roleMatcher (pyStrip cc) = (p0, t0, loc) :: tr1 :: rest)
    (hloc : loc ≠ [])
    (hothers : ∀ tr ∈ tr1 :: rest, tr.2.2 = ([] : Str))
    (he : parseCompany nm cc = .ok e) :
    e.location = loc ∧
    json_to_latex_company e =
      subsection_line e.company ++
      (cv_line_loc ⟨t0, p0⟩ loc ++
        gen_roles_rest e.description
          ((tr1 :: rest).map (fun tr => (⟨tr.2.1, tr.1⟩ : RoleEntry)))) ++ nlStr := by
  have hhd : (findAll roleMatcher (pyStrip cc)).head? = some (p0, t0, loc) := by
    rw [hr]; rfl
  simp only [parseCompany, hhd, Except.ok.injEq] at he
  subst he
  refine ⟨rfl, ?_⟩
  rw [json_to_latex_company_canon]
  dsimp only
  rw [hr]
  simp only [List.map_cons]
  rw [show gen_roles_canon loc
      (match (findAll itemizeMatcher (pyStrip cc)).getLast? with
        | none => []
        | some lastBlock => (findAll itemMatcher lastBlock).map pyStrip) true
      ((⟨t0, p0⟩ : RoleEntry) ::
        (⟨tr1.2.1, tr1.1⟩ : RoleEntry) :: rest.map (fun tr => (⟨tr.2.1, tr.1⟩ : RoleEntry))) =
    cv_line_loc ⟨t0, p0⟩ loc ++
      gen_roles_canon loc
        (match (findAll itemizeMatcher (pyStrip cc)).getLast? with
          | none => []
          | some lastBlock => (findAll itemMatcher lastBlock).map pyStrip) false
        ((⟨tr1.2.1, tr1.1⟩ : RoleEntry) :: rest.map (fun tr => (⟨tr.2.1, tr.1⟩ : RoleEntry)))
    from by simp [gen_roles_canon]]
  rw [gen_roles_canon_false_rest]

/-- An education section whose single entry has fifth field
`\textit{GPA 3.9ite}`, wrapped text ending in characters of the strip set. -/
def c9Body : Str :=
  strL "\\section\x7bEducation\x7d\\cventry\x7b2019\x7d\x7bBS\x7d\x7b\x7d\x7bU\x7d\x7b\\textit\x7bGPA 3.9ite\x7d\x7d\x7b\x7d\\section\x7bEnd\x7d"

/-- C9 (counterexample): the source's `strip("\\textit{}")` trims the
character set from both ends, so the kept entry's GPA value is `GPA 3.9`,
not the wrapper-stripped `GPA 3.9ite` the claim requires. -/
theorem c9_counterexample :
    parse_education c9Body = .ok [⟨strL "2019", strL "BS", strL "U", strL "GPA 3.9"⟩] ∧
    stripFontWrapper (strL "\\textit\x7bGPA 3.9ite\x7d") = strL "GPA 3.9ite" ∧
    strL "GPA 3.9" ≠ strL "GPA 3.9ite" := by decide

/-- C9 (amended): a matched six-field entry of the education span is kept if
and only if its fifth field contains `GPA` (never as `null`), and the GPA
value is the fifth field with the characters of `"\textit{}"` trimmed from
both ends — which coincides with stripping the font wrapper exactly when the
wrapped text neither starts nor ends with one of those characters. -/
theorem c9_gpa_filter (body span : Str) (l : List EducationEntry)
    (hs : sectionGroup1 eduHeading body = some span)
    (hl : parse_education body = .ok l) :
    (l = ((findAll eduMatcher span).filter
        (fun g => containsSub gpaTok g.2.2.2.2)).map mkEducationEntry) ∧
    (∀ (inner : Str) (hc zc : Char), inner.head? = some hc → inner.getLast? = some zc →
      hc ∉ strL "\\textit\x7b\x7d" → zc ∉ strL "\\textit\x7b\x7d" →
      stripSet (strL "\\textit\x7b\x7d") (strL "\\textit\x7b" ++ inner ++ strL "\x7d") =
        stripFontWrapper (strL "\\textit\x7b" ++ inner ++ strL "\x7d")) := by
  constructor
  · simp only [parse_education, hs, Except.ok.injEq] at hl
    exact hl.symm
  · intro inner hc zc hhd hlast hh hz
    rw [stripSet_textit_wrapper hhd hlast hh hz, stripFontWrapper_wrap]

/-- A well-formed document (anchors, delimiters, all six sections) whose
experience span `\subsection{Co}\cventry{2020}{Dev}{Loc}{}{}{}` carries no
newlines. -/
def c1Doc : Str :=
  strL "\\name\x7bAda\x7d\x7bB\x7d\\address\x7bAddr\x7d\\phone[mobile]\x7b555\x7d\\email\x7ba@b.c\x7d\\begin\x7bdocument\x7d\\section\x7bSkills\x7d\\cvitem\x7bS\x7d\x7bD\x7d\\section\x7bCertifications\x7d\\cvitem\x7b2020\x7d\x7bCert\x7d\\section\x7bExperience\x7d\\subsection\x7bCo\x7d\\cventry\x7b2020\x7d\x7bDev\x7d\x7bLoc\x7d\x7b\x7d\x7b\x7d\x7b\x7d\\section\x7bEducation\x7d\\cventry\x7b2019\x7d\x7bBS\x7d\x7b\x7d\x7bU\x7d\x7bGPA 4.0\x7d\x7b\x7d\\section\x7bPublications\x7d\\section\x7bProjects\x7d\\end\x7bdocument\x7d"

/-- C1 (counterexample): `c1Doc` parses successfully, and regenerating from
the untouched parsed entries terminates with a result — but the result is
not the original text: the serializer emits its own newline layout into the
experience span. -/
theorem c1_counterexample :
    (load_create c1Doc).toOption.isSome = true ∧
    load_create c1Doc ≠ .ok c1Doc := by decide

/-- C1 (amended): the parse/regenerate round trip is the identity exactly on
documents whose experience span is already canonical: if the heading occurs
once, a `\section` follows it, and the span strictly between them equals the
serializer's output on the parsed entries, then `load` followed by `create`
with untouched entries returns the original text. -/
theorem c1_roundtrip_canonical (doc : Str) (i j : Nat)
    (pinfo : PersonalInfo) (r : ResumeDoc)
    (hpi : parse_personal_information doc = .ok pinfo)
    (hr : parse_resume doc = .ok r)
    (hI : findFrom expHeading doc 0 = some i)
    (hJ : findFrom sectionTok doc (i + expHeading.length) = some j)
    (hN : findFrom expHeading doc j = none)
    (hspan : sliceStr doc (i + expHeading.length) j = json_to_latex_experience r.experience) :
    load_create doc = .ok doc := by
  simp only [load_create, hpi, hr]
  unfold regenerate_experience
  rw [re_sub_single hI hJ hN, applyTemplate_escBackslash, ← hspan,
    take_slice_drop (findFrom_spec hJ).1]

/-- The canonical variant of `c1Doc`: its experience span is exactly the
serializer's output on its own parse. -/
def c1WDoc : Str :=
  strL "\\name\x7bAda\x7d\x7bB\x7d\\address\x7bAddr\x7d\\phone[mobile]\x7b555\x7d\\email\x7ba@b.c\x7d\\begin\x7bdocument\x7d\\section\x7bSkills\x7d\\cvitem\x7bS\x7d\x7bD\x7d\\section\x7bCertifications\x7d\\cvitem\x7b2020\x7d\x7bCert\x7d\\section\x7bExperience\x7d\\subsection\x7bCo\x7d\n\\cventry\x7b2020\x7d\x7bDev\x7d\x7bLoc\x7d\x7b\x7d\x7b\x7d\x7b\x7d\n\n\\section\x7bEducation\x7d\\cventry\x7b2019\x7d\x7bBS\x7d\x7b\x7d\x7bU\x7d\x7bGPA 4.0\x7d\x7b\x7d\\section\x7bPublications\x7d\\section\x7bProjects\x7d\\end\x7bdocument\x7d"

/-- The parse of `c1WDoc`. -/
def c1WR : ResumeDoc :=
  ⟨[⟨strL "S", strL "D"⟩],
   [⟨strL "2020", strL "Cert"⟩],
   [⟨strL "Co", strL "Loc", [⟨strL "Dev", strL "2020"⟩], []⟩],
   [⟨strL "2019", strL "BS", strL "U", strL "GPA 4.0"⟩],
   some [], some []⟩

/-- Witness for C1 at the canonical document `c1WDoc` (heading at index 147,
next `\section` at 215). -/
theorem c1_witness :
    (parse_resume c1WDoc = .ok c1WR ∧
      sliceStr c1WDoc (147 + expHeading.length) 215 =
        json_to_latex_experience c1WR.experience) ∧
    load_create c1WDoc = .ok c1WDoc :=
  ⟨⟨by decide, by decide⟩,
   c1_roundtrip_canonical c1WDoc 147 215
     ⟨strL "Ada B", strL "Addr", strL "555", strL "a@b.c"⟩ c1WR
     (by decide) (by decide) (by decide) (by decide) (by decide) (by decide)⟩

/-- An employer span with two roles and two itemize blocks, for the C7
witness. -/
def c7Cc : Str :=
  strL "\\cventry\x7b2020\x7d\x7bDev\x7d\x7bLoc\x7d\x7b\x7d\x7b\x7d\x7b\x7d\n\\begin\x7bitemize\x7d\n\\item Old\n\\end\x7bitemize\x7d\n\\cventry\x7b2018\x7d\x7bJr\x7d\x7b\x7d\x7b\x7d\x7b\x7d\x7b\x7d\n\\begin\x7bitemize\x7d\n\\item New stuff\n\\end\x7bitemize\x7d"

/-- The two itemize-block bodies of `c7Cc`. -/
def c7Blocks : List Str := [strL "\n\\item Old\n", strL "\n\\item New stuff\n"]

/-- The parse of `c7Cc` under employer name `Co`: only the second block's
bullet is attached. -/
def c7E : ExperienceEntry :=
  ⟨strL "Co", strL "Loc",
   [⟨strL "Dev", strL "2020"⟩, ⟨strL "Jr", strL "2018"⟩],
   [strL "New stuff"]⟩

/-- Witness for C7 at the two-block employer `c7Cc`. -/
theorem c7_witness :
    (findAll itemizeMatcher (pyStrip c7Cc) = c7Blocks ∧
      parseCompany (strL "Co") c7Cc = .ok c7E) ∧
    (c7E.description = (findAll itemMatcher (c7Blocks.getLast (by decide))).map pyStrip ∧
      json_to_latex_company c7E =
        subsection_line c7E.company ++
        gen_roles_canon c7E.location c7E.description true c7E.roles ++ nlStr) :=
  ⟨⟨by decide, by decide⟩,
   c7_last_block (strL "Co") c7Cc c7E c7Blocks (by decide) (by decide) (by decide)⟩

/-- An employer span with two roles where only the first macro carries a
location, for the C8 witness. -/
def c8WCc : Str :=
  strL "\\cventry\x7b2020\x7d\x7bSr Dev\x7d\x7bToronto\x7d\x7b\x7d\x7b\x7d\x7b\x7d\n\\cventry\x7b2018\x7d\x7bJr Dev\x7d\x7b\x7d\x7b\x7d\x7b\x7d\x7b\x7d\n\\begin\x7bitemize\x7d\n\\item Led team\n\\end\x7bitemize\x7d"

/-- The parse of `c8WCc` under employer name `Co`. -/
def c8WE : ExperienceEntry :=
  ⟨strL "Co", strL "Toronto",
   [⟨strL "Sr Dev", strL "2020"⟩, ⟨strL "Jr Dev", strL "2018"⟩],
   [strL "Led team"]⟩

/-- Witness for C8 at the two-role employer `c8WCc`. -/
theorem c8_witness :
    (findAll roleMatcher (pyStrip c8WCc) =
        (strL "2020", strL "Sr Dev", strL "Toronto") :: (strL "2018", strL "Jr Dev", []) :: [] ∧
      parseCompany (strL "Co") c8WCc = .ok c8WE) ∧
    (c8WE.location = strL "Toronto" ∧
      json_to_latex_company c8WE =
        subsection_line c8WE.company ++
        (cv_line_loc ⟨strL "Sr Dev", strL "2020"⟩ (strL "Toronto") ++
          gen_roles_rest c8WE.description
            (((strL "2018", strL "Jr Dev", ([] : Str)) :: []).map
              (fun tr => (⟨tr.2.1, tr.1⟩ : RoleEntry)))) ++ nlStr) :=
  ⟨⟨by decide, by decide⟩,
   c8_location_first (strL "Co") c8WCc c8WE (strL "2020") (strL "Sr Dev") (strL "Toronto")
     (strL "2018", strL "Jr Dev", []) [] (by decide) (by decide) (by decide) (by decide)⟩

/-- The education span of `c9Body`. -/
def c9Span : Str :=
  strL "\\cventry\x7b2019\x7d\x7bBS\x7d\x7b\x7d\x7bU\x7d\x7b\\textit\x7bGPA 3.9ite\x7d\x7d\x7b\x7d"

/-- The education list parsed from `c9Body`. -/
def c9L : List EducationEntry := [⟨strL "2019", strL "BS", strL "U", strL "GPA 3.9"⟩]

/-- Witness for C9 at `c9Body`, instantiating the strip characterization at
the inner text `GPA 4.0`. -/
theorem c9_witness :
    (sectionGroup1 eduHeading c9Body = some c9Span ∧
      parse_education c9Body = .ok c9L) ∧
    (c9L = ((findAll eduMatcher c9Span).filter
        (fun g => containsSub gpaTok g.2.2.2.2)).map mkEducationEntry ∧
      stripSet (strL "\\textit\x7b\x7d") (strL "\\textit\x7bGPA 4.0\x7d") =
        stripFontWrapper (strL "\\textit\x7bGPA 4.0\x7d")) :=
  ⟨⟨by decide, by decide⟩,
   ⟨((c9_gpa_filter c9Body c9Span c9L (by decide) (by decide)).1),
    by
      have hgen := (c9_gpa_filter c9Body c9Span c9L (by decide) (by decide)).2
      have hx := hgen (strL "GPA 4.0") 'G' '0' (by decide) (by decide) (by decide) (by decide)
      simpa [strL] using hx⟩⟩
